import Mathlib

/-!
Verification of the event-aware volatility estimation engine of the
vol_dashboard repository, against a shallow embedding of its Python source.

Conventions of the embedding:
* Python floats are modelled as real numbers (`ℝ`); purely data-plumbing
  pipelines (record aggregation) are modelled over `ℚ` so that concrete
  instances are decidable.
* A Python function that can raise is modelled as returning `Option`
  (raised `ValueError` ↦ `none`) or `Except String` (an uncaught exception
  with its kind as the message).
* Module-level configuration constants that live outside the embedded files
  (for example `YEARLY_TRADING_DAYS`, `MINUTES_BEFORE_RELEASE`) are taken as
  explicit parameters of the embedded functions.
-/

noncomputable section

/-! ## Realized volatility (vol_dashboard/utils/vol_utils.py) -/

/-- Adjacent log differences of a price list: the embedding of
numpy's diff(log(prices_by_min)). -/
def logDiffs : List ℝ → List ℝ
  | a :: b :: rest => (Real.log b - Real.log a) :: logDiffs (b :: rest)
  | _ => []

/-- Realized variance: the sum of the squared adjacent log differences,
embedding np.sum(log_returns**2). -/
def realizedVariance (prices : List ℝ) : ℝ :=
  ((logDiffs prices).map (fun r => r ^ 2)).sum

/-- Embedding of vol_dashboard/utils/vol_utils.py,
calculate_realized_volatility (current generation, hard-coded 365.25
trading days).  The ValueError raised on fewer than two prices is modelled
as `none`. -/
def calculate_realized_volatility (prices_by_min : List ℝ) : Option ℝ :=
  if prices_by_min.length < 2 then none
  else
    let realized_variance := realizedVariance prices_by_min
    let minutes_in_year : ℝ := 365.25 * 24 * 60
    some (Real.sqrt realized_variance *
      Real.sqrt (minutes_in_year / prices_by_min.length))

/-- Embedding of legacy_package/vol_dashboard/utils/vol_utils.py,
calculate_realized_volatility, with the configurable YEARLY_TRADING_DAYS
constant (imported from the config module, which is outside src/) passed as
an explicit parameter. -/
def legacy_calculate_realized_volatility (yearly_trading_days : ℝ)
    (prices_by_min : List ℝ) : Option ℝ :=
  if prices_by_min.length < 2 then none
  else
    let realized_variance := realizedVariance prices_by_min
    let minutes_in_year : ℝ := yearly_trading_days * 24 * 60
    some (Real.sqrt realized_variance *
      Real.sqrt (minutes_in_year / prices_by_min.length))

/-- Every value successfully returned by the realized-volatility calculator
is a product of two square roots, hence non-negative. -/
theorem calculate_realized_volatility_nonneg {prices : List ℝ} {v : ℝ}
    (h : calculate_realized_volatility prices = some v) : 0 ≤ v := by
  unfold calculate_realized_volatility at h
  split at h
  · exact absurd h (by simp)
  · simp only [Option.some.injEq] at h
    rw [← h]
    positivity

/-- On a list of positive prices the adjacent log differences agree with the
log returns ln(next/prev) of the specification. -/
theorem logDiffs_eq_logReturns :
    ∀ prices : List ℝ, (∀ x ∈ prices, 0 < x) →
      logDiffs prices =
        List.zipWith (fun prev next => Real.log (next / prev)) prices prices.tail
  | [], _ => rfl
  | [_], _ => rfl
  | a :: b :: rest, hpos => by
    have ha : a ≠ 0 := ne_of_gt (hpos a (by simp))
    have hb : b ≠ 0 := ne_of_gt (hpos b (by simp))
    have hrec := logDiffs_eq_logReturns (b :: rest)
      (fun x hx => hpos x (List.mem_cons_of_mem a hx))
    simp only [List.tail_cons] at hrec
    show (Real.log b - Real.log a) :: logDiffs (b :: rest) = _
    simp only [List.tail_cons, List.zipWith_cons_cons]
    rw [hrec, Real.log_div hb ha]

/-- C4: for every sequence of at least two positive close prices,
calculate_realized_volatility returns
sqrt(sum of squared log returns ln(closes[i]/closes[i-1])) multiplied by
sqrt((365.25 * 24 * 60) / N) where the annualization divisor N is the number
of closes, not the number of returns. -/
theorem calculate_realized_volatility_formula (prices : List ℝ)
    (hlen : 2 ≤ prices.length) (hpos : ∀ x ∈ prices, 0 < x) :
    calculate_realized_volatility prices =
      some (Real.sqrt
          (((List.zipWith (fun prev next => Real.log (next / prev))
              prices prices.tail).map (fun r => r ^ 2)).sum) *
        Real.sqrt ((365.25 * 24 * 60) / prices.length)) := by
  unfold calculate_realized_volatility
  rw [if_neg (by omega), realizedVariance, logDiffs_eq_logReturns prices hpos]

/-- Witness for C4 at the concrete price list [1, 2, 4]. -/
theorem calculate_realized_volatility_formula_witness :
    calculate_realized_volatility [1, 2, 4] =
      some (Real.sqrt
          (((List.zipWith (fun prev next => Real.log (next / prev))
              ([1, 2, 4] : List ℝ) ([1, 2, 4] : List ℝ).tail).map
            (fun r => r ^ 2)).sum) *
        Real.sqrt ((365.25 * 24 * 60) / ([1, 2, 4] : List ℝ).length)) :=
  calculate_realized_volatility_formula [1, 2, 4] (by simp)
    (by intro x hx; simp at hx; rcases hx with h | h | h <;> rw [h] <;> norm_num)

/-- C9: for every price sequence with fewer than two elements the realized
volatility calculator fails (raises ValueError, modelled as `none`) and in
particular never returns any value such as zero. -/
theorem calculate_realized_volatility_insufficient {prices : List ℝ}
    (h : prices.length < 2) :
    calculate_realized_volatility prices = none ∧
      ∀ v : ℝ, calculate_realized_volatility prices ≠ some v := by
  unfold calculate_realized_volatility
  rw [if_pos h]
  exact ⟨rfl, fun v hv => by cases hv⟩

/-- Witness for C9 at the concrete single-element price list [100]. -/
theorem calculate_realized_volatility_insufficient_witness :
    calculate_realized_volatility [100] = none ∧
      ∀ v : ℝ, calculate_realized_volatility [100] ≠ some v :=
  calculate_realized_volatility_insufficient (by simp)

/-- C10: the current and legacy generations of the realized-volatility
calculator compute the same function once YEARLY_TRADING_DAYS is 365.25:
on every input both fail together or return equal values. -/
theorem legacy_current_realized_volatility_agree (prices : List ℝ) :
    legacy_calculate_realized_volatility 365.25 prices =
      calculate_realized_volatility prices := rfl

/-! ## Event-vol decomposition
(vol_dashboard/service/update_previous_event_vol.py, update_previous_event_vol) -/

/-- Embedding of the per-(event, instrument) body of update_previous_event_vol
(lines 38-56): each window must contain exactly the expected number of bars
(otherwise the pair is skipped, modelled as `none`), then
event_vol = sqrt(max((vol_after/100)^2 - (vol_before/100)^2, 0)) * 100. -/
def decompose_event_vol (minutes_before minutes_after : ℕ)
    (before_close after_close : List ℝ) : Option ℝ :=
  if before_close.length ≠ minutes_before then none
  else if after_close.length ≠ minutes_after then none
  else
    match calculate_realized_volatility before_close,
        calculate_realized_volatility after_close with
    | some vol_before, some vol_after =>
        some (Real.sqrt (max ((vol_after / 100) ^ 2 - (vol_before / 100) ^ 2) 0) * 100)
    | _, _ => none

/-- Scaling identity used by the decomposer: dividing both vols by 100 under
the clamped variance difference and multiplying the root by 100 is the
identity transformation. -/
theorem sqrt_max_scaled (vb va : ℝ) :
    Real.sqrt (max ((va / 100) ^ 2 - (vb / 100) ^ 2) 0) * 100 =
      Real.sqrt (max (va ^ 2 - vb ^ 2) 0) := by
  have hdiff : (va / 100) ^ 2 - (vb / 100) ^ 2 = (va ^ 2 - vb ^ 2) / 10000 := by
    ring
  have hmax : max ((va ^ 2 - vb ^ 2) / 10000) 0 = max (va ^ 2 - vb ^ 2) 0 / 10000 := by
    rcases le_total (va ^ 2 - vb ^ 2) 0 with h | h
    · rw [max_eq_right (by linarith), max_eq_right h]
      norm_num
    · rw [max_eq_left (by positivity), max_eq_left h]
  have hsqrt : Real.sqrt (max (va ^ 2 - vb ^ 2) 0 / 10000) =
      Real.sqrt (max (va ^ 2 - vb ^ 2) 0) / 100 := by
    rw [show (10000 : ℝ) = 100 ^ 2 by norm_num,
      Real.sqrt_div (le_max_right _ _), Real.sqrt_sq (by norm_num : (0:ℝ) ≤ 100)]
  rw [hdiff, hmax, hsqrt]
  field_simp

/-- C1: whenever both windows pass the bar-count check and the two realized
vols are vol_before and vol_after, the emitted event vol equals
sqrt(max(vol_after^2 - vol_before^2, 0)); it is never negative and is 0
whenever vol_after is at most vol_before. -/
theorem decompose_event_vol_eq_sqrt_max {mb ma : ℕ}
    {before_close after_close : List ℝ} {vol_before vol_after ev : ℝ}
    (hb : calculate_realized_volatility before_close = some vol_before)
    (ha : calculate_realized_volatility after_close = some vol_after)
    (hev : decompose_event_vol mb ma before_close after_close = some ev) :
    ev = Real.sqrt (max (vol_after ^ 2 - vol_before ^ 2) 0) ∧
      0 ≤ ev ∧ (vol_after ≤ vol_before → ev = 0) := by
  have hva : 0 ≤ vol_after := calculate_realized_volatility_nonneg ha
  unfold decompose_event_vol at hev
  split at hev
  · exact absurd hev (by simp)
  · split at hev
    · exact absurd hev (by simp)
    · rw [hb, ha] at hev
      simp only [Option.some.injEq] at hev
      rw [← hev, sqrt_max_scaled]
      refine ⟨rfl, Real.sqrt_nonneg _, fun hle => ?_⟩
      have hsq : vol_after ^ 2 ≤ vol_before ^ 2 := by
        have := pow_le_pow_left₀ hva hle 2
        simpa using this
      rw [max_eq_right (by linarith), Real.sqrt_zero]

/-- Witness for C1 at the flat windows [1, 1] / [1, 1] with expected window
lengths 2 and 2: both vols are 0 and the event vol is 0. -/
theorem decompose_event_vol_eq_sqrt_max_witness :
    (0 : ℝ) = Real.sqrt (max ((0 : ℝ) ^ 2 - (0 : ℝ) ^ 2) 0) ∧
      (0 : ℝ) ≤ 0 ∧ ((0 : ℝ) ≤ 0 → (0 : ℝ) = 0) :=
  @decompose_event_vol_eq_sqrt_max 2 2 [1, 1] [1, 1] 0 0 0
    (by simp [calculate_realized_volatility, realizedVariance, logDiffs])
    (by simp [calculate_realized_volatility, realizedVariance, logDiffs])
    (by simp [decompose_event_vol, calculate_realized_volatility,
      realizedVariance, logDiffs])

/-! ## Event-removed implied vol
(vol_dashboard/dashboard/fwd_estimator.py, FwdVolEstimator.get_event_removed_iv) -/

/-- Embedding of FwdVolEstimator.get_event_removed_iv (fwd_estimator.py lines
38-55), with the YEARLY_TRADING_DAYS config constant as a parameter.  Despite
its annotation the Python function returns the pair (y_er, iv_er). -/
def get_event_removed_iv (yearly_trading_days raw_iv tte : ℝ)
    (estimated_event_vol_l : List ℝ) : ℝ × ℝ :=
  let raw_y := (raw_iv * 100) * Real.sqrt tte / 2000
  let y_er_sq := raw_y ^ 2 -
    (estimated_event_vol_l.map
      (fun estimated_event_vol =>
        (estimated_event_vol / Real.sqrt yearly_trading_days) ^ 2)).sum
  let y_er_sq_clamped := if y_er_sq < 0 then 0 else y_er_sq
  let y_er := Real.sqrt y_er_sq_clamped
  (y_er, (y_er * 2000 / Real.sqrt tte) / 100)

/-- C6: for every non-negative raw implied vol, positive time-to-expiry and
list of non-negative estimated event vols, the event-removed implied vol
returned by get_event_removed_iv never exceeds the raw implied vol. -/
theorem get_event_removed_iv_le_raw (yearly_trading_days raw_iv tte : ℝ)
    (estimated_event_vol_l : List ℝ)
    (hraw : 0 ≤ raw_iv) (htte : 0 < tte)
    (_hl : ∀ e ∈ estimated_event_vol_l, 0 ≤ e) :
    (get_event_removed_iv yearly_trading_days raw_iv tte
        estimated_event_vol_l).2 ≤ raw_iv := by
  have hst : 0 < Real.sqrt tte := Real.sqrt_pos.mpr htte
  unfold get_event_removed_iv
  simp only
  set raw_y := (raw_iv * 100) * Real.sqrt tte / 2000 with hraw_y_def
  have hraw_y : 0 ≤ raw_y := by positivity
  set s := (estimated_event_vol_l.map
    (fun estimated_event_vol =>
      (estimated_event_vol / Real.sqrt yearly_trading_days) ^ 2)).sum with hs_def
  have hs : 0 ≤ s := by
    refine List.sum_nonneg ?_
    intro x hx
    simp only [List.mem_map] at hx
    obtain ⟨y, _, rfl⟩ := hx
    positivity
  have hclamp : (if raw_y ^ 2 - s < 0 then 0 else raw_y ^ 2 - s) ≤ raw_y ^ 2 := by
    split
    · positivity
    · linarith
  have hy_er : Real.sqrt (if raw_y ^ 2 - s < 0 then 0 else raw_y ^ 2 - s) ≤ raw_y :=
    calc Real.sqrt (if raw_y ^ 2 - s < 0 then 0 else raw_y ^ 2 - s)
        ≤ Real.sqrt (raw_y ^ 2) := Real.sqrt_le_sqrt hclamp
      _ = raw_y := Real.sqrt_sq hraw_y
  calc (Real.sqrt (if raw_y ^ 2 - s < 0 then 0 else raw_y ^ 2 - s) * 2000 /
          Real.sqrt tte) / 100
      ≤ (raw_y * 2000 / Real.sqrt tte) / 100 := by gcongr
    _ = raw_iv := by
        rw [hraw_y_def]
        field_simp

/-- Witness for C6 at raw_iv = 1, tte = 1 and a single estimated event vol
of 1/2 with 365.25 yearly trading days. -/
theorem get_event_removed_iv_le_raw_witness :
    (get_event_removed_iv 365.25 1 1 [1 / 2]).2 ≤ 1 :=
  get_event_removed_iv_le_raw 365.25 1 1 [1 / 2] (by norm_num) (by norm_num)
    (by intro e he; simp at he; rw [he]; norm_num)

/-! ## Forward-vol bootstrap
(vol_dashboard/dashboard/fwd_estimator.py, FwdVolEstimator.update_upcoming_event_vol) -/

/-- Embedding of the pairwise forward-vol formula of
FwdVolEstimator.update_upcoming_event_vol (fwd_estimator.py lines 205-211):
sqrt((tte_next * iv_next^2 - tte_prev * iv_prev^2) / (tte_next - tte_prev)). -/
def forward_vol (tte_prev iv_prev tte_next iv_next : ℝ) : ℝ :=
  Real.sqrt ((tte_next * iv_next ^ 2 - tte_prev * iv_prev ^ 2) /
    (tte_next - tte_prev))

/-- Embedding of the forward-vol bootstrap loop over the ascending quote list
(each quote a pair of time-to-expiry and ATM implied vol): the first bucket's
forward vol is by convention the first quote's own implied vol
(fwd_estimator.py lines 174-192), and every consecutive expiry pair
contributes the pairwise forward vol (lines 195-233). -/
def fwd_curve (quotes : List (ℝ × ℝ)) : List ℝ :=
  match quotes with
  | [] => []
  | q :: _ =>
    q.2 :: (quotes.zip quotes.tail).map
      (fun pq => forward_vol pq.1.1 pq.1.2 pq.2.1 pq.2.2)

/-- With equal implied vol v at both legs and strictly increasing
times-to-expiry, the pairwise forward vol collapses to v. -/
theorem forward_vol_flat (t1 t2 v : ℝ) (h12 : t1 < t2) (hv : 0 ≤ v) :
    forward_vol t1 v t2 v = v := by
  unfold forward_vol
  have hne : t2 - t1 ≠ 0 := by linarith
  rw [show t2 * v ^ 2 - t1 * v ^ 2 = (t2 - t1) * v ^ 2 by ring,
    mul_div_cancel_left₀ _ hne, Real.sqrt_sq hv]

/-- Every pairwise bucket of a flat ascending quote list yields the constant
implied vol. -/
theorem fwd_pairs_flat :
    ∀ (quotes : List (ℝ × ℝ)) (v : ℝ), 0 ≤ v →
      (∀ q ∈ quotes, q.2 = v) →
      List.Chain' (fun p q => p.1 < q.1) quotes →
      ∀ x ∈ (quotes.zip quotes.tail).map
          (fun pq => forward_vol pq.1.1 pq.1.2 pq.2.1 pq.2.2), x = v
  | [], _, _, _, _ => by simp
  | [_], _, _, _, _ => by simp
  | a :: b :: t, v, hv, hiv, hchain => by
    intro x hx
    rw [List.tail_cons, List.zip_cons_cons, List.map_cons] at hx
    rcases List.mem_cons.mp hx with hx | hx
    · rw [hx]
      have hab : a.1 < b.1 := (List.chain'_cons.mp hchain).1
      have ha : a.2 = v := hiv a (by simp)
      have hb : b.2 = v := hiv b (by simp)
      rw [ha, hb]
      exact forward_vol_flat a.1 b.1 v hab hv
    · exact fwd_pairs_flat (b :: t) v hv
        (fun q hq => hiv q (List.mem_cons_of_mem a hq))
        (List.chain'_cons.mp hchain).2 x (by simpa using hx)

/-- C5: on a flat term structure (every quote carries the same non-negative
implied vol v, times-to-expiry strictly increasing) every forward vol of the
bootstrapped curve equals v, and the curve's first bucket is by convention
the first quote's own ATM implied vol. -/
theorem fwd_curve_flat (quotes : List (ℝ × ℝ)) (v : ℝ) (hv : 0 ≤ v)
    (hiv : ∀ q ∈ quotes, q.2 = v)
    (hchain : List.Chain' (fun p q => p.1 < q.1) quotes) :
    (∀ x ∈ fwd_curve quotes, x = v) ∧
      (fwd_curve quotes).head? = (quotes.head?).map Prod.snd := by
  constructor
  · intro x hx
    match quotes, hx with
    | q :: rest, hx =>
      rcases List.mem_cons.mp hx with hx | hx
      · rw [hx]
        exact hiv q (by simp)
      · exact fwd_pairs_flat (q :: rest) v hv hiv hchain x hx
  · match quotes with
    | [] => rfl
    | q :: rest => rfl

/-- Witness for C5 at the two-quote flat curve [(1, 2), (3, 2)]. -/
theorem fwd_curve_flat_witness :
    (∀ x ∈ fwd_curve [((1 : ℝ), (2 : ℝ)), (3, 2)], x = 2) ∧
      (fwd_curve [((1 : ℝ), (2 : ℝ)), (3, 2)]).head? =
        ([((1 : ℝ), (2 : ℝ)), (3, 2)].head?).map Prod.snd :=
  fwd_curve_flat [(1, 2), (3, 2)] 2 (by norm_num)
    (by intro q hq; rcases List.mem_cons.mp hq with h | h
        · rw [h]
        · simp at h; rw [h])
    (by refine List.chain'_cons.mpr ⟨by norm_num, ?_⟩; exact List.chain'_singleton _)

/-! ## Event calendar matcher
(vol_dashboard/event_utils.py and
legacy_package/vol_dashboard/utils/event_utils.py, get_events) -/

/-- The two classification modes of get_events. -/
inductive EventOp
  | previous
  | upcoming

/-- The per-event after-window duration in minutes: the
ADJ_MINUTES_AFTER_RELEASE per-name override when present, else the
MINUTES_AFTER_RELEASE default (legacy event_utils.py lines 21-23). -/
def minutesAfter (adj : List (String × ℤ)) (defaultAfter : ℤ)
    (event_name : String) : ℤ :=
  (adj.lookup event_name).getD defaultAfter

/-- Embedding of get_events over release instants in UTC minutes: the
timezone conversion of each release happens upstream, so each event is the
pair of its name and its release instant.  An event is matched as previous
iff its after-window end is strictly before now, and as upcoming iff its
before-window start is strictly after now. -/
def get_events (minutesBefore : ℤ) (adj : List (String × ℤ))
    (defaultAfter : ℤ) (now : ℤ) (op : EventOp)
    (events : List (String × ℤ)) : List (String × ℤ) :=
  events.filter (fun e =>
    let start_before_dt := e.2 - minutesBefore
    let end_after_dt := e.2 + minutesAfter adj defaultAfter e.1
    match op with
    | .previous => decide (end_after_dt < now)
    | .upcoming => decide (start_before_dt > now))

/-- C7: an event is classified as previous iff its window end is strictly
before now and as upcoming iff its window start is strictly after now; an
event straddling now appears in neither list, and with non-negative window
durations no event is ever in both lists. -/
theorem get_events_classification (minutesBefore defaultAfter : ℤ)
    (adj : List (String × ℤ)) (now : ℤ) (events : List (String × ℤ))
    (e : String × ℤ)
    (hb : 0 ≤ minutesBefore) (ha : 0 ≤ minutesAfter adj defaultAfter e.1) :
    (e ∈ get_events minutesBefore adj defaultAfter now .previous events ↔
        e ∈ events ∧ e.2 + minutesAfter adj defaultAfter e.1 < now) ∧
      (e ∈ get_events minutesBefore adj defaultAfter now .upcoming events ↔
        e ∈ events ∧ now < e.2 - minutesBefore) ∧
      (e.2 - minutesBefore ≤ now ∧ now ≤ e.2 + minutesAfter adj defaultAfter e.1 →
        e ∉ get_events minutesBefore adj defaultAfter now .previous events ∧
          e ∉ get_events minutesBefore adj defaultAfter now .upcoming events) ∧
      ¬(e ∈ get_events minutesBefore adj defaultAfter now .previous events ∧
          e ∈ get_events minutesBefore adj defaultAfter now .upcoming events) := by
  have hprev : e ∈ get_events minutesBefore adj defaultAfter now .previous events ↔
      e ∈ events ∧ e.2 + minutesAfter adj defaultAfter e.1 < now := by
    simp [get_events, List.mem_filter]
  have hupc : e ∈ get_events minutesBefore adj defaultAfter now .upcoming events ↔
      e ∈ events ∧ now < e.2 - minutesBefore := by
    simp [get_events, List.mem_filter]
  refine ⟨hprev, hupc, ?_, ?_⟩
  · rintro ⟨h1, h2⟩
    exact ⟨fun hmem => absurd ((hprev.mp hmem).2) (by omega),
      fun hmem => absurd ((hupc.mp hmem).2) (by omega)⟩
  · rintro ⟨hp, hu⟩
    have h1 := (hprev.mp hp).2
    have h2 := (hupc.mp hu).2
    omega

/-- Witness for C7: with a 1440-minute before-window, a 30-minute default
after-window and a per-name override list, the CPI event released at minute
10000 observed at now = 0 is classified as upcoming only. -/
theorem get_events_classification_witness :
    (("CPI", (10000 : ℤ)) ∈
        get_events 1440 [("FOMC", 60)] 30 0 .previous [("CPI", 10000)] ↔
        ("CPI", (10000 : ℤ)) ∈ [(("CPI" : String), (10000 : ℤ))] ∧
          (10000 : ℤ) + minutesAfter [("FOMC", 60)] 30 "CPI" < 0) ∧
      (("CPI", (10000 : ℤ)) ∈
          get_events 1440 [("FOMC", 60)] 30 0 .upcoming [("CPI", 10000)] ↔
        ("CPI", (10000 : ℤ)) ∈ [(("CPI" : String), (10000 : ℤ))] ∧
          (0 : ℤ) < 10000 - 1440) ∧
      ((10000 : ℤ) - 1440 ≤ 0 ∧ (0 : ℤ) ≤ 10000 + minutesAfter [("FOMC", 60)] 30 "CPI" →
        ("CPI", (10000 : ℤ)) ∉
            get_events 1440 [("FOMC", 60)] 30 0 .previous [("CPI", 10000)] ∧
          ("CPI", (10000 : ℤ)) ∉
            get_events 1440 [("FOMC", 60)] 30 0 .upcoming [("CPI", 10000)]) ∧
      ¬(("CPI", (10000 : ℤ)) ∈
          get_events 1440 [("FOMC", 60)] 30 0 .previous [("CPI", 10000)] ∧
        ("CPI", (10000 : ℤ)) ∈
          get_events 1440 [("FOMC", 60)] 30 0 .upcoming [("CPI", 10000)]) :=
  get_events_classification 1440 30 [("FOMC", 60)] 0 [("CPI", 10000)]
    ("CPI", 10000) (by decide) (by decide)

/-! ## Event-vol aggregation
(vol_dashboard/service/update_previous_event_vol.py, estimate_event_vol) -/

/-- One stored historical event-vol record (the columns of estimate_event_vol
that the aggregation reads). -/
structure EventVolRecord where
  event_name : String
  symbol : String
  event_vol : ℚ

/-- Embedding of Python str.replace, which replaces every non-overlapping
occurrence of the pattern from left to right. -/
def pyReplaceAux (pat rep : List Char) : Nat → List Char → List Char
  | _, [] => []
  | 0, l => l
  | fuel + 1, c :: rest =>
    if pat ≠ [] ∧ pat.isPrefixOf (c :: rest) then
      rep ++ pyReplaceAux pat rep fuel ((c :: rest).drop pat.length)
    else
      c :: pyReplaceAux pat rep fuel rest

/-- Embedding of Python str.replace on strings. -/
def pyReplace (s pat rep : String) : String :=
  ⟨pyReplaceAux pat.data rep.data s.data.length s.data⟩

/-- The aggregation key of a record: event name and the symbol with the
"-PERPETUAL" suffix stripped, joined by a bar. -/
def recordKey (r : EventVolRecord) : String :=
  r.event_name ++ "|" ++ pyReplace r.symbol "-PERPETUAL" ""

/-- Embedding of estimate_event_vol (update_previous_event_vol.py lines
77-110): keep the records with strictly positive event vol, key each record
by event name and stripped currency, and keep the last record per key
(pandas groupby(...).last() in row order).  The function returns the value
the aggregation stores for one key. -/
def estimate_event_vol (records : List EventVolRecord) (id : String) :
    Option ℚ :=
  ((records.filter (fun r => decide (0 < r.event_vol))).filter
      (fun r => recordKey r == id)).getLast?.map
    (fun r => r.event_vol)

/-- Counterexample to C3 as stated: for the (FOMC, BTC) pair whose most
recent observation has event vol 0, the aggregation returns the older
positive value 1 rather than the most recent observation 0, because records
with non-positive event vol are filtered out before grouping. -/
theorem estimate_event_vol_counterexample :
    estimate_event_vol
        [⟨"FOMC", "BTC-PERPETUAL", 1⟩, ⟨"FOMC", "BTC-PERPETUAL", 0⟩]
        "FOMC|BTC" = some 1 ∧
      (([⟨"FOMC", "BTC-PERPETUAL", (1 : ℚ)⟩, ⟨"FOMC", "BTC-PERPETUAL", 0⟩] :
            List EventVolRecord).getLast?).map (fun r => r.event_vol) =
        some 0 ∧
      recordKey ⟨"FOMC", "BTC-PERPETUAL", 0⟩ = "FOMC|BTC" := by
  refine ⟨?_, rfl, ?_⟩ <;> rfl

/-- Reversing a list turns a decomposition along an element into the
mirrored decomposition of the original list. -/
theorem reverse_eq_append_cons_iff {α : Type} (l as bs : List α) (r : α) :
    l.reverse = as ++ r :: bs ↔ l = bs.reverse ++ r :: as.reverse := by
  constructor
  · intro h
    have h2 := congrArg List.reverse h
    rw [List.reverse_reverse] at h2
    rw [h2]
    simp
  · intro h
    rw [h]
    simp

/-- C3 amended: for every list of historical event-vol records and every
aggregation key, the estimate is some v iff v is the event vol of a record
of that key with strictly positive event vol that is followed by no later
record of the same key with positive event vol (the most recent positive
observation wins — later records of the pair with non-positive vol and
records of other pairs do not displace it), and the estimate is empty iff
the key has no positive observation at all. -/
theorem estimate_event_vol_most_recent_positive
    (records : List EventVolRecord) (id : String) (v : ℚ) :
    (estimate_event_vol records id = some v ↔
        ∃ older r later, records = older ++ r :: later ∧ recordKey r = id ∧
          0 < r.event_vol ∧ r.event_vol = v ∧
          ∀ s ∈ later, recordKey s = id → s.event_vol ≤ 0) ∧
      (estimate_event_vol records id = none ↔
        ∀ r ∈ records, recordKey r = id → r.event_vol ≤ 0) := by
  simp only [estimate_event_vol, List.filter_getLast?, ← List.filter_reverse,
    List.find?_filter]
  constructor
  · rw [Option.map_eq_some']
    constructor
    · rintro ⟨r, hfind, hv⟩
      rw [List.find?_eq_some] at hfind
      obtain ⟨hP, as, bs, hdec, hprior⟩ := hfind
      simp only [decide_eq_true_eq, beq_iff_eq] at hP
      refine ⟨bs.reverse, r, as.reverse,
        (reverse_eq_append_cons_iff records as bs r).mp hdec, hP.2, hP.1, hv, ?_⟩
      intro s hs hk
      have hmem : s ∈ as := by simpa using hs
      have hns := hprior s hmem
      simp only [Bool.not_eq_true', decide_eq_false_iff_not, decide_eq_true_eq,
        beq_iff_eq] at hns
      exact le_of_not_lt (fun hpos => hns ⟨hpos, hk⟩)
    · rintro ⟨older, r, later, hdec, hk, hpos, hv, hlater⟩
      refine ⟨r, ?_, hv⟩
      rw [List.find?_eq_some]
      refine ⟨by simp [hpos, hk], later.reverse, older.reverse, ?_, ?_⟩
      · exact (reverse_eq_append_cons_iff records later.reverse older.reverse r).mpr
          (by simpa using hdec)
      · intro a ha
        have ha2 : a ∈ later := by simpa using ha
        simp only [Bool.not_eq_true', decide_eq_false_iff_not, decide_eq_true_eq,
          beq_iff_eq]
        rintro ⟨hpos2, hka⟩
        exact absurd hpos2 (not_lt.mpr (hlater a ha2 hka))
  · rw [Option.map_eq_none', List.find?_eq_none]
    constructor
    · intro h r hr hk
      have hnr := h r (by simpa using hr)
      simp only [decide_eq_true_eq, beq_iff_eq] at hnr
      exact le_of_not_lt (fun hpos => hnr ⟨hpos, hk⟩)
    · intro h x hx
      have hx2 : x ∈ records := by simpa using hx
      intro hcontra
      simp only [decide_eq_true_eq, beq_iff_eq] at hcontra
      exact absurd hcontra.1 (not_lt.mpr (h x hx2 hcontra.2))

/-- Witness for C3 amended: in a history whose FOMC/BTC records are a
positive observation of 1 followed (after an unrelated CPI/ETH record) by a
more recent zero observation, the estimate for "FOMC|BTC" is the positive 1. -/
theorem estimate_event_vol_most_recent_positive_witness :
    estimate_event_vol
        [⟨"FOMC", "BTC-PERPETUAL", 1⟩, ⟨"CPI", "ETH-PERPETUAL", 2⟩,
          ⟨"FOMC", "BTC-PERPETUAL", 0⟩] "FOMC|BTC" = some 1 :=
  (estimate_event_vol_most_recent_positive
      [⟨"FOMC", "BTC-PERPETUAL", 1⟩, ⟨"CPI", "ETH-PERPETUAL", 2⟩,
        ⟨"FOMC", "BTC-PERPETUAL", 0⟩] "FOMC|BTC" 1).1.mpr
    ⟨[], ⟨"FOMC", "BTC-PERPETUAL", 1⟩,
      [⟨"CPI", "ETH-PERPETUAL", 2⟩, ⟨"FOMC", "BTC-PERPETUAL", 0⟩],
      rfl, by decide, by norm_num, rfl, by
        intro s hs hk
        rcases List.mem_cons.mp hs with h | h
        · rw [h] at hk
          exact absurd hk (by decide)
        · simp at h
          rw [h]⟩

/-! ## Event-removed daily realized vol
(vol_dashboard/service/update_daily_rv.py, update_daily_rv) -/

/-- Positive-overlap test between two time ranges in UTC minutes: the
embedding of DateTimeRange.intersection followed by the
get_timedelta_second() > 0 check (update_daily_rv.py lines 97-98). -/
def rangesOverlap (a b : ℤ × ℤ) : Bool :=
  decide (max a.1 b.1 < min a.2 b.2)

/-- Embedding of DateTimeRange.subtract: the pieces of d left after removing
e, which are d itself when the two do not overlap and otherwise the parts of
d before and after e. -/
def subtractRange (d e : ℤ × ℤ) : List (ℤ × ℤ) :=
  if rangesOverlap d e then
    (if d.1 < e.1 then [(d.1, e.1)] else []) ++
      (if e.2 < d.2 then [(e.2, d.2)] else [])
  else [d]

/-- Embedding of the exclusion-matching loop of update_daily_rv (lines
96-104): each event whose exclusion range has positive overlap with the day
overwrites the matched event id and the remaining sub-ranges; events without
positive overlap are skipped, and with no overlapping event at all the
result stays empty. -/
def match_excluded (dtr_orig : ℤ × ℤ)
    (excluded_time : List (String × ℤ × ℤ)) :
    Option (String × List (ℤ × ℤ)) :=
  excluded_time.foldl
    (fun acc e =>
      if rangesOverlap dtr_orig e.2 then
        some (e.1, subtractRange dtr_orig e.2)
      else acc)
    none

/-- Embedding of the event-removed branch of update_daily_rv (lines
105-134): with no matched event the event-removed vol is exactly the raw
vol; otherwise the squared log returns and bar counts of every remaining
sub-range holding at least two bars are pooled and annualized with the
combined sample count.  The bar store is a function from a range to its
ordered close list, and the matched event id is returned alongside. -/
def update_daily_rv_er (yearly_trading_days : ℝ) (dtr_orig : ℤ × ℤ)
    (excluded_time : List (String × ℤ × ℤ)) (bars : ℤ × ℤ → List ℝ)
    (raw_rv : ℝ) : ℝ × String :=
  match match_excluded dtr_orig excluded_time with
  | none => (raw_rv, "")
  | some (event_s, dtr_remain) =>
    let pieces := (dtr_remain.map bars).filter (fun l => decide (2 ≤ l.length))
    let daily_total_rv := (pieces.map realizedVariance).sum
    let daily_total_n : ℕ := (pieces.map List.length).sum
    (Real.sqrt daily_total_rv *
        Real.sqrt (yearly_trading_days * 24 * 60 / daily_total_n),
      event_s)

/-- The matching loop returns nothing when no exclusion range has positive
overlap with the day. -/
theorem match_excluded_eq_none (dtr_orig : ℤ × ℤ) :
    ∀ (excluded_time : List (String × ℤ × ℤ)),
      (∀ e ∈ excluded_time, rangesOverlap dtr_orig e.2 = false) →
      match_excluded dtr_orig excluded_time = none := by
  have haux : ∀ (l : List (String × ℤ × ℤ))
      (acc : Option (String × List (ℤ × ℤ))),
      (∀ e ∈ l, rangesOverlap dtr_orig e.2 = false) →
      l.foldl
        (fun acc e =>
          if rangesOverlap dtr_orig e.2 then
            some (e.1, subtractRange dtr_orig e.2)
          else acc)
        acc = acc := by
    intro l
    induction l with
    | nil => intro acc _; rfl
    | cons e rest ih =>
      intro acc h
      rw [List.foldl_cons, if_neg (by simp [h e (by simp)])]
      exact ih acc (fun x hx => h x (List.mem_cons_of_mem e hx))
  intro excluded_time h
  exact haux excluded_time none h

/-- C8: when no event's exclusion window has positive overlap with the day,
the event-removed realized vol equals the unrestricted realized vol of the
day and no event id is attributed. -/
theorem update_daily_rv_er_no_overlap (yearly_trading_days : ℝ)
    (dtr_orig : ℤ × ℤ) (excluded_time : List (String × ℤ × ℤ))
    (bars : ℤ × ℤ → List ℝ) (raw_rv : ℝ)
    (h : ∀ e ∈ excluded_time,
      ¬(max dtr_orig.1 e.2.1 < min dtr_orig.2 e.2.2)) :
    update_daily_rv_er yearly_trading_days dtr_orig excluded_time bars
        raw_rv = (raw_rv, "") := by
  unfold update_daily_rv_er
  rw [match_excluded_eq_none dtr_orig excluded_time
    (fun e he => by simpa [rangesOverlap] using h e he)]

/-- Witness for C8: a day [0, 1440) with a single FOMC exclusion window
[2000, 2030) entirely outside the day leaves the raw vol of 42 unchanged. -/
theorem update_daily_rv_er_no_overlap_witness :
    update_daily_rv_er 365.25 (0, 1440) [("FOMC", (2000, 2030))]
        (fun _ => []) 42 = (42, "") :=
  update_daily_rv_er_no_overlap 365.25 (0, 1440) [("FOMC", (2000, 2030))]
    (fun _ => []) 42
    (by intro e he; simp at he; rw [he]; decide)

/-! ## ATM IV resolution
(legacy_package/vol_dashboard/api/deribit.py, DeribitAPI.find_deribit_iv, and
vol_dashboard/dashboard/fwd_estimator.py, FwdVolEstimator.get_atm_iv) -/

/-- One listed option instrument of the fetched chain, with the expiration
as a date code. -/
structure OptionInstrument where
  instrument_name : String
  strike : ℝ
  expiration_date : ℤ
  is_call : Bool

/-- Embedding of DeribitAPI.find_closest_call_strike (deribit.py lines
82-105): restrict the chain to calls expiring on the target date and take
the strike minimizing the distance to the underlying price, the first such
strike in listing order winning ties (Python's min); none when no call is
listed for the date. -/
def find_closest_call_strike (all_instruments : List OptionInstrument)
    (target_expiry_date : ℤ) (underlying_price : ℝ) : Option ℝ :=
  let call_options := all_instruments.filter
    (fun inst => inst.is_call && inst.expiration_date == target_expiry_date)
  match call_options.map (fun inst => inst.strike) with
  | [] => none
  | s :: rest =>
    some (rest.foldl
      (fun best strike =>
        if |strike - underlying_price| < |best - underlying_price| then strike
        else best)
      s)

/-- The dictionary returned by a successful find_deribit_iv. -/
structure IVStrike where
  implied_vol : ℝ
  instrument_name : String
  atm_strike : ℝ
  underlying_price : ℝ
  tte : ℝ

/-- Embedding of DeribitAPI.find_deribit_iv (deribit.py lines 107-131): when
no call strike is listed the empty dict is returned, modelled as `none`;
otherwise the resolved ATM call's mark IV (a percentage from the quote
source, normalized by 100 exactly once) together with its name, strike,
underlying price and time-to-expiry.  The mark-IV feed, the instrument-name
formatting and the ACT/365.25 time-to-expiry measured at the current instant
enter as parameters. -/
def find_deribit_iv (all_instruments : List OptionInstrument)
    (mark_iv_pct : String → ℝ) (mk_name : ℝ → String) (tte : ℝ)
    (target_expiry_date : ℤ) (underlying_price : ℝ) : Option IVStrike :=
  match find_closest_call_strike all_instruments target_expiry_date
      underlying_price with
  | none => none
  | some atm_strike =>
    let instrument_name := mk_name atm_strike
    some
      { implied_vol := mark_iv_pct instrument_name / 100
      , instrument_name := instrument_name
      , atm_strike := atm_strike
      , underlying_price := underlying_price
      , tte := tte }

/-- One upcoming macro event as get_atm_iv receives it. -/
structure UpcomingEvent where
  utc_dt : ℤ
  event_id : String
  event_name : String

/-- One entry of the per-expiry result table of get_atm_iv. -/
structure ATMEntry where
  iv_strike : IVStrike
  implied_vol_er : ℝ
  events_included : List String

/-- Python dict access on the possibly-empty dict returned by
find_deribit_iv: reading a key of the empty dict raises KeyError, which
escapes get_atm_iv uncaught. -/
def dictGet {α : Type} (d : Option IVStrike) (f : IVStrike → α)
    (key : String) : Except String α :=
  match d with
  | some q => .ok (f q)
  | none => .error ("KeyError: " ++ key)

/-- Embedding of FwdVolEstimator.get_atm_iv (fwd_estimator.py lines 57-106)
for one currency batch.  For each expiration (a date code, with its 08:00
UTC instant and time-to-expiry supplied by parameter functions) the
underlying is the matching future's mark price when listed, else the spot
price; the ATM quote is resolved; the upcoming events strictly before the
expiry instant are attached together with their estimated vols; and the
event-removed IV is computed.  The first dict key the Python body reads on
the resolver's result is "implied_vol", so an expiry with no listed call
strikes raises KeyError there; the exception propagates out of the loop,
aborting the remaining expiries of the batch. -/
def get_atm_iv (yearly_trading_days : ℝ) (est_event_vol : String → ℝ)
    (currency : String) (all_instruments : List OptionInstrument)
    (mark_iv_pct : String → ℝ) (mk_name : ℤ → ℝ → String)
    (expiry_dt : ℤ → ℤ) (tte_of : ℤ → ℝ) (future_mark : ℤ → Option ℝ)
    (spot_price : ℝ) (upcoming_events : List UpcomingEvent)
    (all_expirations : List ℤ) : Except String (List (ℤ × ATMEntry)) :=
  all_expirations.mapM (fun expiration => do
    let underlying_price := (future_mark expiration).getD spot_price
    let iv_strike := find_deribit_iv all_instruments mark_iv_pct
      (mk_name expiration) (tte_of expiration) expiration underlying_price
    let events_included := upcoming_events.filter
      (fun event => decide (event.utc_dt < expiry_dt expiration))
    let event_vol_included := events_included.map
      (fun event => est_event_vol (event.event_name ++ "|" ++ currency))
    let q ← dictGet iv_strike (fun q => q) "implied_vol"
    let iv_er := (get_event_removed_iv yearly_trading_days q.implied_vol
      q.tte event_vol_included).2
    pure (expiration,
      { iv_strike := q
      , implied_vol_er := iv_er
      , events_included := events_included.map (fun e => e.event_id) }))

/-- C2: on a currency batch with expirations 5 and 6 and an option chain
with no listed calls, the ATM IV resolver itself returns the empty result
(`none`, not an error), but get_atm_iv does not skip the empty expiry: the
first dict access on the empty result raises KeyError, so the whole batch
aborts with an uncaught exception instead of continuing. -/
theorem get_atm_iv_no_strikes_aborts :
    find_deribit_iv [] (fun _ => 50) (fun _ => "X") 0.1 5 100 = none ∧
      get_atm_iv 365.25 (fun _ => 0) "BTC" [] (fun _ => 50)
          (fun _ _ => "X") (fun d => d * 1440) (fun _ => 0.1)
          (fun _ => none) 100 [] [5, 6] =
        .error "KeyError: implied_vol" :=
  ⟨rfl, rfl⟩

end
